import Mathlib

/-!
Shallow embedding of the HelgyKoin token-ledger bot
(`src/ledger.py`, `src/database.py`, `src/config.py`, `src/models.py`).

Modelling decisions, stated once here:

* Python `float` amounts, rates and prices are modelled as exact rationals
  (`ℚ`); timestamps (`datetime`) are rationals counting seconds, so that
  `(end_time - start_time).total_seconds()` is plain subtraction.
* The SQLite store is a record of lists: one list per table, in insertion
  order (`AUTOINCREMENT` ids are tracked by `next_…` counters).  An SQL
  `UPDATE … WHERE user_id = ?` maps over the list touching every matching
  row; primary-key uniqueness is carried as an explicit `Nodup` hypothesis
  where a proof needs it.
* `DatabaseManager.fetch_one` / `fetch_all` memoise results keyed by the
  query and its parameters.  The only cached query a claim is about is the
  transaction-history query, so the model's cache holds entries for that
  query only (keyed by `(user_id, limit, offset)`, with `created_at` and
  `ttl` exactly as in `CacheManager`).  Wallet point lookups are modelled
  as reading the committed store; the booster-multiplier query embeds
  `datetime.now()` in its cache key, so it can never be served from cache
  and is modelled cache-free.
* Writes issued through `DatabaseManager.execute_query` invalidate the
  whole cache (`CacheManager.invalidate`); writes issued on a raw
  `aiosqlite.connect` transaction (transfer, stake, claim, unstake,
  booster purchase, sell) do not touch the cache — the model mirrors this.
* The Russian result strings returned by `LedgerManager` are modelled by
  the inductive `OpMsg`, one constructor per distinct message, carrying
  the values the source interpolates into the f-string (number formatting
  is abstracted away).
* SQL `LIKE 'pat%'` prefix matching is modelled by `likePrefixMatch`,
  including the single-character wildcard `_` (case folding is irrelevant
  here: every stored key is lower-case ASCII).
-/

namespace HelgyKoin

/-! ## Configuration (`src/config.py`, `TokenConfig`) and module constants -/

namespace TokenConfig

def DECIMALS : Nat := 8

def TOTAL_SUPPLY : ℚ := 1000000000

def INITIAL_PRICE : ℚ := 1 / 10000

def STARTUP_BONUS : ℚ := 100

def MIN_STAKE_AMOUNT : ℚ := 10

def MAX_STAKE_AMOUNT : ℚ := 1000000

end TokenConfig

/-- Constant `BASE_HOURLY_REWARD_RATE = 0.001` (`src/ledger.py`, line 8). -/
def BASE_HOURLY_REWARD_RATE : ℚ := 1 / 1000

/-- Constant `LedgerManager.HKN_SELL_RATE_TO_BOTUSD = 0.00005`. -/
def HKN_SELL_RATE_TO_BOTUSD : ℚ := 5 / 100000

/-- The `CacheManager` default TTL, 300 seconds (`src/config.py` / `database.py`). -/
def CACHE_TTL : ℚ := 300

/-! ## Data model (`src/models.py` and the SQLite schema in `src/database.py`) -/

structure Wallet where
  user_id : Nat
  username : String
  balance : ℚ
deriving DecidableEq

structure Transaction where
  id : Nat
  timestamp : ℚ
  sender_id : Nat
  receiver_id : Nat
  amount : ℚ
  description : String
deriving DecidableEq

structure Stake where
  stake_id : Nat
  user_id : Nat
  amount : ℚ
  created_at : ℚ
  last_claimed_at : ℚ
deriving DecidableEq

structure Booster where
  booster_id : Nat
  user_id : Nat
  booster_type : String
  active_until : ℚ
  effect_multiplier : ℚ
deriving DecidableEq

structure Token where
  name : String
  symbol : String
  decimals : Nat
  total_supply : ℚ
  current_price : ℚ
deriving DecidableEq

/-- One memoised result of the transaction-history `fetch_all` query
(`CacheEntry` of `src/models.py`, specialised to that query's parameters). -/
structure HistCacheEntry where
  uid : Nat
  lim : Nat
  off : Nat
  value : List Transaction
  created_at : ℚ
  ttl : ℚ
deriving DecidableEq

/-- The committed SQLite state plus the in-memory read cache. -/
structure LedgerState where
  wallets : List Wallet
  transactions : List Transaction
  stakes : List Stake
  boosters : List Booster
  token : Token
  next_tx_id : Nat
  next_stake_id : Nat
  next_booster_id : Nat
  cache : List HistCacheEntry
deriving DecidableEq

/-- Result messages of `LedgerManager` operations; each constructor stands
for one distinct Russian message string of `src/ledger.py`, carrying the
interpolated values. -/
inductive OpMsg where
  | transferDone
  | transferAmountNotPositive
  | senderWalletNotFound
  | receiverWalletNotFound
  | insufficientSenderFunds
  | stakeDone (amount : ℚ)
  | stakeAmountNotPositive
  | walletNotFound
  | insufficientFundsBalance (balance : ℚ)
  | stakeNotFound
  | stakeNotOwned
  | noRewardsToClaim
  | claimDone (amount : ℚ)
  | unstakeDone (principal reward : ℚ)
  | invalidBoosterType
  | insufficientHKN (needed owned : ℚ)
  | boosterBought (key : String)
  | sellAmountNotPositive
  | insufficientHKNBalance (balance : ℚ)
  | sellDone (hkn botusd : ℚ)
deriving DecidableEq

/-! ## Store primitives -/

/-- Query `SELECT … FROM wallets WHERE user_id = ?` (point lookup, `get_wallet`). -/
def getWallet (s : LedgerState) (uid : Nat) : Option Wallet :=
  s.wallets.find? (fun w => w.user_id == uid)

/-- Statement `UPDATE wallets SET balance = balance - ? WHERE user_id = ?`. -/
def subBal (uid : Nat) (amt : ℚ) (ws : List Wallet) : List Wallet :=
  ws.map (fun w => if w.user_id == uid then { w with balance := w.balance - amt } else w)

/-- Statement `UPDATE wallets SET balance = balance + ? WHERE user_id = ?`. -/
def addBal (uid : Nat) (amt : ℚ) (ws : List Wallet) : List Wallet :=
  ws.map (fun w => if w.user_id == uid then { w with balance := w.balance + amt } else w)

/-- Statement `INSERT INTO transactions (sender_id, receiver_id, amount, description)`;
`id` is `AUTOINCREMENT`, `timestamp` defaults to the current time. -/
def appendTx (s : LedgerState) (sender receiver : Nat) (amount : ℚ) (desc : String)
    (now : ℚ) : LedgerState :=
  { s with
    transactions := s.transactions ++ [⟨s.next_tx_id, now, sender, receiver, amount, desc⟩],
    next_tx_id := s.next_tx_id + 1 }

/-- SQL `LIKE` matching of a `%`-free pattern against a string prefix:
`_` matches any single character, every other pattern character matches
itself.  `likePrefixMatch p.data t.data` is `t LIKE (p ++ "%")`. -/
def likePrefixMatch : List Char → List Char → Bool
  | [], _ => true
  | _ :: _, [] => false
  | p :: ps, c :: cs => (p == '_' || p == c) && likePrefixMatch ps cs

/-! ## `LedgerManager` operations (`src/ledger.py`) -/

/-- Model of `LedgerManager.create_wallet` (lines 38–62): a bare
`INSERT INTO wallets (user_id, username, balance) VALUES (?, ?, STARTUP_BONUS)`
through `execute_query` (which invalidates the read cache on success); the
insert fails on a duplicate primary key and then `None` is returned with
nothing changed.  No row is added to `transactions`. -/
def create_wallet (s : LedgerState) (user_id : Nat) (username : String) :
    Option Wallet × LedgerState :=
  match getWallet s user_id with
  | some _ => (none, s)
  | none =>
    let w : Wallet := ⟨user_id, username, TokenConfig.STARTUP_BONUS⟩
    (some w, { s with wallets := s.wallets ++ [w], cache := [] })

/-- Model of `LedgerManager.execute_transfer` (lines 102–150). -/
def execute_transfer (s : LedgerState) (sender_id receiver_id : Nat) (amount : ℚ)
    (now : ℚ) : (Bool × OpMsg) × LedgerState :=
  if amount ≤ 0 then ((false, OpMsg.transferAmountNotPositive), s)
  else
    match getWallet s sender_id, getWallet s receiver_id with
    | none, _ => ((false, OpMsg.senderWalletNotFound), s)
    | some _, none => ((false, OpMsg.receiverWalletNotFound), s)
    | some sw, some _ =>
      if sw.balance < amount then ((false, OpMsg.insufficientSenderFunds), s)
      else
        let s1 := { s with wallets := subBal sender_id amount s.wallets }
        let s2 := { s1 with wallets := addBal receiver_id amount s1.wallets }
        ((true, OpMsg.transferDone), appendTx s2 sender_id receiver_id amount "Перевод" now)

/-- Model of `LedgerManager.set_token_price` (lines 174–191): rejects `new_price <= 0`,
otherwise updates the singleton `token_info` row through `execute_query`
(cache invalidated). -/
def set_token_price (s : LedgerState) (new_price : ℚ) : Bool × LedgerState :=
  if new_price ≤ 0 then (false, s)
  else (true, { s with token := { s.token with current_price := new_price }, cache := [] })

/-- Model of `LedgerManager.get_transaction_history` (lines 238–261): a cached
`fetch_all` of the rows where the user is sender or receiver, with
`ORDER BY timestamp DESC LIMIT ? OFFSET ?`. -/
def txMatchesUser (uid : Nat) (t : Transaction) : Bool :=
  t.sender_id == uid || t.receiver_id == uid

/-- Stable insertion into a timestamp-descending list: the new element goes
in front of the first element whose timestamp is not strictly larger. -/
def insertTsDesc (t : Transaction) : List Transaction → List Transaction
  | [] => [t]
  | u :: us => if t.timestamp < u.timestamp then u :: insertTsDesc t us else t :: u :: us

/-- Semantics of `ORDER BY timestamp DESC` over rows in table (insertion/rowid) order:
a stable sort, so rows with equal timestamps keep ascending-id order. -/
def sortTsDesc : List Transaction → List Transaction
  | [] => []
  | t :: ts => insertTsDesc t (sortTsDesc ts)

def histKey (e : HistCacheEntry) (uid lim off : Nat) : Bool :=
  e.uid == uid && e.lim == lim && e.off == off

/-- Freshness test: `CacheEntry.is_expired` is `age > ttl`, so an entry is served while
`now - created_at ≤ ttl`. -/
def cacheFresh (now : ℚ) (e : HistCacheEntry) : Bool :=
  decide (now - e.created_at ≤ e.ttl)

def get_transaction_history (s : LedgerState) (user_id : Nat) (lim off : Nat)
    (now : ℚ) : List Transaction × LedgerState :=
  match s.cache.find? (fun e => histKey e user_id lim off && cacheFresh now e) with
  | some e => (e.value, s)
  | none =>
    let rows := ((sortTsDesc (s.transactions.filter (txMatchesUser user_id))).drop off).take lim
    (rows,
      { s with cache := ⟨user_id, lim, off, rows, now, CACHE_TTL⟩ ::
          s.cache.filter (fun e => !histKey e user_id lim off) })

/-- Model of `LedgerManager.calculate_rewards` (lines 265–275). -/
def calculate_rewards (stake_amount : ℚ) (start_time end_time : ℚ)
    (booster_multiplier : ℚ) : ℚ :=
  let duration_seconds := end_time - start_time
  let duration_seconds := if duration_seconds < 0 then 0 else duration_seconds
  let duration_hours := duration_seconds / 3600
  stake_amount * (duration_hours * BASE_HOURLY_REWARD_RATE) * booster_multiplier

/-- Row filter of the `get_active_booster_multiplier` query:
`user_id = ? AND booster_type LIKE '<pref>%' AND active_until > ?`. -/
def boosterMatches (uid : Nat) (pref : String) (now : ℚ) (b : Booster) : Bool :=
  b.user_id == uid && likePrefixMatch pref.data b.booster_type.data
    && decide (now < b.active_until)

/-- Model of `LedgerManager.get_active_booster_multiplier` (lines 277–290):
`ORDER BY effect_multiplier DESC LIMIT 1`, i.e. the largest multiplier among
the matching unexpired boosters, defaulting to `1.0`. -/
def get_active_booster_multiplier (s : LedgerState) (user_id : Nat) (pref : String)
    (now : ℚ) : ℚ :=
  match s.boosters.filter (boosterMatches user_id pref now) with
  | [] => 1
  | b :: bs => (bs.map Booster.effect_multiplier).foldl max b.effect_multiplier

/-- Model of `LedgerManager.stake_tokens` (lines 293–331).  Note: the only amount
checks in the source are `amount <= 0` and the balance comparison; the
`TokenConfig.MIN_STAKE_AMOUNT` / `MAX_STAKE_AMOUNT` constants are never
consulted. -/
def stake_tokens (s : LedgerState) (user_id : Nat) (amount : ℚ) (now : ℚ) :
    (Bool × OpMsg) × LedgerState :=
  if amount ≤ 0 then ((false, OpMsg.stakeAmountNotPositive), s)
  else
    match getWallet s user_id with
    | none => ((false, OpMsg.walletNotFound), s)
    | some w =>
      if w.balance < amount then ((false, OpMsg.insufficientFundsBalance w.balance), s)
      else
        ((true, OpMsg.stakeDone amount),
          { s with
            wallets := subBal user_id amount s.wallets,
            stakes := s.stakes ++ [⟨s.next_stake_id, user_id, amount, now, now⟩],
            next_stake_id := s.next_stake_id + 1 })

/-- Model of the helper `_calculate_and_update_rewards` of `LedgerManager` (lines 367–389); the
leading underscore is dropped from the Lean name.  When rewards are
positive and this is not an unstake, `last_claimed_at` is advanced through
`execute_query` (which invalidates the read cache). -/
def calculate_and_update_rewards (s : LedgerState) (stake_id : Nat) (for_unstake : Bool)
    (now : ℚ) : Option (Nat × ℚ × ℚ × ℚ) × LedgerState :=
  match s.stakes.find? (fun st => st.stake_id == stake_id) with
  | none => (none, s)
  | some st =>
    let m := get_active_booster_multiplier s st.user_id "speed_staking" now
    let rewards := calculate_rewards st.amount st.last_claimed_at now m
    let s' :=
      if 0 < rewards ∧ for_unstake = false then
        { s with
          stakes := s.stakes.map (fun t =>
            if t.stake_id == stake_id then { t with last_claimed_at := now } else t),
          cache := [] }
      else s
    (some (st.user_id, st.amount, rewards, now), s')

/-- Model of `LedgerManager.claim_rewards` (lines 392–431).  The payout guard in the
source is `calculated_rewards <= 0`: any strictly positive reward is paid. -/
def claim_rewards (s : LedgerState) (user_id stake_id : Nat) (now : ℚ) :
    (Bool × OpMsg) × LedgerState :=
  match calculate_and_update_rewards s stake_id false now with
  | (none, s') => ((false, OpMsg.stakeNotFound), s')
  | (some (s_user_id, _, calculated_rewards, _), s') =>
    if s_user_id ≠ user_id then ((false, OpMsg.stakeNotOwned), s')
    else if calculated_rewards ≤ 0 then ((false, OpMsg.noRewardsToClaim), s')
    else
      ((true, OpMsg.claimDone calculated_rewards),
        appendTx { s' with wallets := addBal user_id calculated_rewards s'.wallets }
          0 user_id calculated_rewards
          ("Награда за стейкинг (ID: " ++ toString stake_id ++ ")") now)

/-- Model of `LedgerManager.unstake_tokens` (lines 434–474): credits
`staked_amount + calculated_rewards` in one `UPDATE`, deletes the stake row,
and inserts a single combined transaction row for the total. -/
def unstake_tokens (s : LedgerState) (user_id stake_id : Nat) (now : ℚ) :
    (Bool × OpMsg) × LedgerState :=
  match calculate_and_update_rewards s stake_id true now with
  | (none, s') => ((false, OpMsg.stakeNotFound), s')
  | (some (s_user_id, staked_amount, calculated_rewards, _), s') =>
    if s_user_id ≠ user_id then ((false, OpMsg.stakeNotOwned), s')
    else
      let total_return_amount := staked_amount + calculated_rewards
      ((true, OpMsg.unstakeDone staked_amount calculated_rewards),
        appendTx
          { s' with
            wallets := addBal user_id total_return_amount s'.wallets,
            stakes := s'.stakes.filter (fun t => !(t.stake_id == stake_id)) }
          0 user_id total_return_amount
          ("Возврат со стейкинга (ID: " ++ toString stake_id ++ ") + награды") now)

/-- An entry of the `BOOSTER_TYPES` catalog (`src/ledger.py`, lines 10–25). -/
structure BoosterCfg where
  name_ru : String
  cost : ℚ
  duration_hours : ℚ
  multiplier : ℚ
deriving DecidableEq

def BOOSTER_TYPES (key : String) : Option BoosterCfg :=
  if key = "speed_24h_1.5x" then some ⟨"Ускоритель х1.5 (24ч)", 100, 24, 3 / 2⟩
  else if key = "speed_7d_2x" then some ⟨"Мега Ускоритель х2.0 (7 дней)", 500, 168, 2⟩
  else none

/-- Model of `LedgerManager.buy_booster` (lines 477–526): debits the cost, deletes
every `speed%` booster of the buyer when the key starts with `"speed"`,
inserts the new booster with `active_until = now + duration`, and records
one transaction with `receiver_id = 0`.  Python's `str.startswith` is
modelled on the character list. -/
def buy_booster (s : LedgerState) (user_id : Nat) (booster_key : String) (now : ℚ) :
    (Bool × OpMsg) × LedgerState :=
  match BOOSTER_TYPES booster_key with
  | none => ((false, OpMsg.invalidBoosterType), s)
  | some cfg =>
    match getWallet s user_id with
    | none => ((false, OpMsg.walletNotFound), s)
    | some w =>
      if w.balance < cfg.cost then ((false, OpMsg.insufficientHKN cfg.cost w.balance), s)
      else
        let active_until := now + cfg.duration_hours * 3600
        let s1 := { s with wallets := subBal user_id cfg.cost s.wallets }
        let s2 :=
          if "speed".data.isPrefixOf booster_key.data then
            { s1 with boosters := s1.boosters.filter (fun b =>
                !(b.user_id == user_id && likePrefixMatch "speed".data b.booster_type.data)) }
          else s1
        ((true, OpMsg.boosterBought booster_key),
          appendTx
            { s2 with
              boosters := s2.boosters ++
                [⟨s2.next_booster_id, user_id, booster_key, active_until, cfg.multiplier⟩],
              next_booster_id := s2.next_booster_id + 1 }
            user_id 0 cfg.cost ("Покупка ускорителя: " ++ cfg.name_ru) now)

/-- Model of `LedgerManager.sell_hkn_to_system` (lines 532–573): debits the HKN
amount and records one transaction with `receiver_id = 0` (the formatted
sale description is abstracted to a fixed string). -/
def sell_hkn_to_system (s : LedgerState) (user_id : Nat) (amount_hkn : ℚ) (now : ℚ) :
    (Bool × OpMsg) × LedgerState :=
  if amount_hkn ≤ 0 then ((false, OpMsg.sellAmountNotPositive), s)
  else
    match getWallet s user_id with
    | none => ((false, OpMsg.walletNotFound), s)
    | some w =>
      if w.balance < amount_hkn then ((false, OpMsg.insufficientHKNBalance w.balance), s)
      else
        let received_bot_usd := amount_hkn * HKN_SELL_RATE_TO_BOTUSD
        ((true, OpMsg.sellDone amount_hkn received_bot_usd),
          appendTx { s with wallets := subBal user_id amount_hkn s.wallets }
            user_id 0 amount_hkn "Продажа HKN системе" now)

/-! ## Derived notions used by the statements -/

/-- Balance of the (first) wallet row of a user, `0` when absent. -/
def balanceOf (s : LedgerState) (uid : Nat) : ℚ :=
  ((getWallet s uid).map Wallet.balance).getD 0

/-- Total circulating balance over all wallet rows. -/
def sumBalances (s : LedgerState) : ℚ :=
  (s.wallets.map Wallet.balance).sum

/-- Primary-key uniqueness of `wallets.user_id`. -/
def walletIdsNodup (s : LedgerState) : Prop :=
  (s.wallets.map Wallet.user_id).Nodup

/-- The schema constraint `CHECK (balance >= 0)` as a state predicate. -/
def nonNegBalances (s : LedgerState) : Prop :=
  ∀ w ∈ s.wallets, 0 ≤ w.balance

instance (s : LedgerState) : Decidable (walletIdsNodup s) := by
  unfold walletIdsNodup; infer_instance

instance (s : LedgerState) : Decidable (nonNegBalances s) := by
  unfold nonNegBalances; infer_instance

/-! ## Concrete states used by witnesses and counterexamples -/

def tok0 : Token :=
  ⟨"HelgyKoin", "HKN", TokenConfig.DECIMALS, TokenConfig.TOTAL_SUPPLY, TokenConfig.INITIAL_PRICE⟩

/-- Two freshly-bonused accounts. -/
def stateAB : LedgerState :=
  ⟨[⟨1, "alice", 100⟩, ⟨2, "bob", 100⟩], [], [], [], tok0, 1, 1, 1, []⟩

/-- A poor sender (balance 5) and an empty receiver. -/
def stateLow : LedgerState :=
  ⟨[⟨1, "alice", 5⟩, ⟨2, "bob", 0⟩], [], [], [], tok0, 1, 1, 1, []⟩

/-- One account with a stake of 2 HKN whose rewards were last claimed at
time 0. -/
def stateSmallStake : LedgerState :=
  ⟨[⟨1, "carol", 100⟩], [], [⟨1, 1, 2, 0, 0⟩], [], tok0, 1, 2, 1, []⟩

/-- One funded account with no stakes. -/
def stateNoStakes : LedgerState :=
  ⟨[⟨1, "carol", 100⟩], [], [], [], tok0, 1, 1, 1, []⟩

/-- An account with balance 0 holding a 50-HKN stake opened at time 0. -/
def stateWithStake : LedgerState :=
  ⟨[⟨1, "carol", 0⟩], [], [⟨1, 1, 50, 0, 0⟩], [], tok0, 1, 2, 1, []⟩

/-- The empty ledger. -/
def stateEmpty : LedgerState :=
  ⟨[], [], [], [], tok0, 1, 1, 1, []⟩

/-- A rich account holding an old speed booster, for booster exclusivity. -/
def stateBooster : LedgerState :=
  ⟨[⟨1, "dave", 1000⟩], [], [], [⟨1, 1, "speed_24h_1.5x", 50, 3 / 2⟩], tok0, 1, 1, 2, []⟩

/-- Reachable history-cache scenario: create two wallets, read the (empty)
history at time 0 — which caches it — then transfer at time 10 (a raw
transaction, which does not invalidate the cache). -/
def stateHist0 : LedgerState :=
  (create_wallet (create_wallet stateEmpty 1 "alice").2 2 "bob").2

def stateHist1 : LedgerState :=
  (get_transaction_history stateHist0 1 5 0 0).2

def stateHist2 : LedgerState :=
  (execute_transfer stateHist1 1 2 20 10).2

/-! ## Helper lemmas about the store primitives -/

theorem find?_subBal (uid a : Nat) (d : ℚ) (ws : List Wallet) :
    (subBal uid d ws).find? (fun w => w.user_id == a)
      = (ws.find? (fun w => w.user_id == a)).map
          (fun w => if w.user_id == uid then { w with balance := w.balance - d } else w) := by
  unfold subBal
  have hp : ((fun w => w.user_id == a) ∘ fun w =>
      if w.user_id == uid then { w with balance := w.balance - d } else w)
        = (fun w : Wallet => w.user_id == a) := by
    funext w
    by_cases h : (w.user_id == uid) = true <;> simp [Function.comp, h]
  rw [List.find?_map, hp]

theorem find?_addBal (uid a : Nat) (d : ℚ) (ws : List Wallet) :
    (addBal uid d ws).find? (fun w => w.user_id == a)
      = (ws.find? (fun w => w.user_id == a)).map
          (fun w => if w.user_id == uid then { w with balance := w.balance + d } else w) := by
  unfold addBal
  have hp : ((fun w => w.user_id == a) ∘ fun w =>
      if w.user_id == uid then { w with balance := w.balance + d } else w)
        = (fun w : Wallet => w.user_id == a) := by
    funext w
    by_cases h : (w.user_id == uid) = true <;> simp [Function.comp, h]
  rw [List.find?_map, hp]

theorem countP_subBal (uid a : Nat) (d : ℚ) (ws : List Wallet) :
    (subBal uid d ws).countP (fun w => w.user_id == a)
      = ws.countP (fun w => w.user_id == a) := by
  unfold subBal
  rw [List.countP_map]
  congr 1
  funext w
  by_cases h : (w.user_id == uid) = true <;> simp [Function.comp, h]

theorem countP_addBal (uid a : Nat) (d : ℚ) (ws : List Wallet) :
    (addBal uid d ws).countP (fun w => w.user_id == a)
      = ws.countP (fun w => w.user_id == a) := by
  unfold addBal
  rw [List.countP_map]
  congr 1
  funext w
  by_cases h : (w.user_id == uid) = true <;> simp [Function.comp, h]

theorem sum_subBal (uid : Nat) (d : ℚ) (ws : List Wallet) :
    ((subBal uid d ws).map Wallet.balance).sum
      = (ws.map Wallet.balance).sum - d * ws.countP (fun w => w.user_id == uid) := by
  induction ws with
  | nil => simp [subBal]
  | cons w ws ih =>
    simp only [subBal, List.map_cons, List.sum_cons, List.countP_cons] at ih ⊢
    by_cases h : (w.user_id == uid) = true <;> simp only [h, if_pos, if_neg, ite_true,
        ite_false, Bool.false_eq_true, not_false_iff] <;> rw [ih] <;> push_cast <;> ring

theorem sum_addBal (uid : Nat) (d : ℚ) (ws : List Wallet) :
    ((addBal uid d ws).map Wallet.balance).sum
      = (ws.map Wallet.balance).sum + d * ws.countP (fun w => w.user_id == uid) := by
  induction ws with
  | nil => simp [addBal]
  | cons w ws ih =>
    simp only [addBal, List.map_cons, List.sum_cons, List.countP_cons] at ih ⊢
    by_cases h : (w.user_id == uid) = true <;> simp only [h, if_pos, if_neg, ite_true,
        ite_false, Bool.false_eq_true, not_false_iff] <;> rw [ih] <;> push_cast <;> ring

theorem countP_eq_one_of_nodup (ws : List Wallet) (a : Nat) (w : Wallet)
    (hnd : (ws.map Wallet.user_id).Nodup)
    (hw : ws.find? (fun x => x.user_id == a) = some w) :
    ws.countP (fun x => x.user_id == a) = 1 := by
  induction ws with
  | nil => simp at hw
  | cons x xs ih =>
    rw [List.map_cons, List.nodup_cons] at hnd
    rw [List.countP_cons]
    by_cases h : (x.user_id == a) = true
    · have hz : xs.countP (fun y => y.user_id == a) = 0 := by
        rw [List.countP_eq_zero]
        intro y hy hpy
        apply hnd.1
        rw [List.mem_map]
        refine ⟨y, hy, ?_⟩
        have h1 := beq_iff_eq.mp hpy
        have h2 := beq_iff_eq.mp h
        omega
      simp [h, hz]
    · rw [List.find?_cons_of_neg _ (by simpa using h)] at hw
      simp [h, ih hnd.2 hw]

theorem mem_user_id_of_find? (ws : List Wallet) (a : Nat) (w : Wallet)
    (hw : ws.find? (fun x => x.user_id == a) = some w) : w.user_id = a := by
  simpa using List.find?_some hw

theorem balanceOf_eq (s : LedgerState) (uid : Nat) (w : Wallet)
    (hw : getWallet s uid = some w) : balanceOf s uid = w.balance := by
  simp [balanceOf, hw]

/-!  ## C1 -/

/-- C1:  For every successful `Transfer(senderId, receiverId, amount)`
with distinct endpoints, the sender's balance decreases by exactly `amount`,
the receiver's increases by exactly `amount`, and the sum of all account
balances is unchanged; a successful self-transfer leaves that balance
unchanged (net zero, no double counting), and the sum is unchanged in
either case. -/
theorem C1_transfer_zero_sum (s : LedgerState) (a b : Nat) (amt now : ℚ)
    (hnd : walletIdsNodup s)
    (hok : ((execute_transfer s a b amt now).1).1 = true) :
    (a ≠ b →
        balanceOf (execute_transfer s a b amt now).2 a = balanceOf s a - amt ∧
        balanceOf (execute_transfer s a b amt now).2 b = balanceOf s b + amt) ∧
    (a = b → balanceOf (execute_transfer s a b amt now).2 a = balanceOf s a) ∧
    sumBalances (execute_transfer s a b amt now).2 = sumBalances s := by
  unfold execute_transfer at *
  by_cases hamt : amt ≤ 0
  · simp [hamt] at hok
  · rw [if_neg hamt] at hok ⊢
    cases hsw : getWallet s a with
    | none => rw [hsw] at hok; simp at hok
    | some sw =>
      cases hrw : getWallet s b with
      | none => rw [hsw, hrw] at hok; simp at hok
      | some rw2 =>
        rw [hsw, hrw] at hok
        dsimp only at hok ⊢
        by_cases hbal : sw.balance < amt
        · simp [hbal] at hok
        · simp only [if_neg hbal]
          have hsa : sw.user_id = a := mem_user_id_of_find? _ _ _ hsw
          have hrb : rw2.user_id = b := mem_user_id_of_find? _ _ _ hrw
          have hcount_a : s.wallets.countP (fun x => x.user_id == a) = 1 :=
            countP_eq_one_of_nodup _ _ _ hnd hsw
          have hcount_b : s.wallets.countP (fun x => x.user_id == b) = 1 :=
            countP_eq_one_of_nodup _ _ _ hnd hrw
          have hsw2 : s.wallets.find? (fun w => w.user_id == a) = some sw := hsw
          have hrw2 : s.wallets.find? (fun w => w.user_id == b) = some rw2 := hrw
          refine ⟨?_, ?_, ?_⟩
          · intro hab
            constructor
            · simp only [balanceOf, getWallet, appendTx]
              rw [find?_addBal, find?_subBal, hsw2]
              simp [hsa, hab]
            · simp only [balanceOf, getWallet, appendTx]
              rw [find?_addBal, find?_subBal, hrw2]
              simp [hrb, Ne.symm hab]
          · intro hab
            subst hab
            simp only [balanceOf, getWallet, appendTx]
            rw [find?_addBal, find?_subBal, hsw2]
            simp [hsa]
          · simp only [sumBalances, appendTx]
            rw [sum_addBal, countP_subBal, sum_subBal, hcount_a, hcount_b]
            push_cast
            ring

/-- Witness for C1 at a concrete transfer of 20 HKN from account 1 to
account 2, each starting at 100. -/
theorem C1_witness :
    balanceOf (execute_transfer stateAB 1 2 20 0).2 1 = balanceOf stateAB 1 - 20 ∧
    balanceOf (execute_transfer stateAB 1 2 20 0).2 2 = balanceOf stateAB 2 + 20 ∧
    sumBalances (execute_transfer stateAB 1 2 20 0).2 = sumBalances stateAB := by
  have h := C1_transfer_zero_sum stateAB 1 2 20 0 (by decide) (by decide)
  exact ⟨(h.1 (by decide)).1, (h.1 (by decide)).2, h.2.2⟩

/-!  ## C2 -/

theorem foldl_max_nonneg (l : List ℚ) (init : ℚ) (h : 0 ≤ init) : 0 ≤ l.foldl max init := by
  induction l generalizing init with
  | nil => simpa using h
  | cons x xs ih => exact ih (max init x) (le_trans h (le_max_left _ _))

theorem multiplier_nonneg (s : LedgerState) (uid : Nat) (pref : String) (now : ℚ)
    (hb : ∀ b ∈ s.boosters, 0 ≤ b.effect_multiplier) :
    0 ≤ get_active_booster_multiplier s uid pref now := by
  unfold get_active_booster_multiplier
  cases hc : s.boosters.filter (boosterMatches uid pref now) with
  | nil => norm_num
  | cons b bs =>
    have hbmem : 0 ≤ b.effect_multiplier := by
      have hbin : b ∈ s.boosters.filter (boosterMatches uid pref now) := by
        rw [hc]; exact List.mem_cons_self _ _
      exact hb b (List.mem_of_mem_filter hbin)
    exact foldl_max_nonneg _ _ hbmem

theorem calculate_rewards_nonneg (amt t0 t1 m : ℚ) (ha : 0 ≤ amt) (hm : 0 ≤ m) :
    0 ≤ calculate_rewards amt t0 t1 m := by
  unfold calculate_rewards BASE_HOURLY_REWARD_RATE
  dsimp only
  by_cases h : t1 - t0 < 0
  · rw [if_pos h]; simp
  · rw [if_neg h]
    exact mul_nonneg (mul_nonneg ha (mul_nonneg
      (div_nonneg (by linarith [not_lt.mp h]) (by norm_num)) (by norm_num))) hm

theorem nonNeg_addBal (uid : Nat) (d : ℚ) (ws : List Wallet) (hd : 0 ≤ d)
    (h : ∀ x ∈ ws, 0 ≤ x.balance) : ∀ x ∈ addBal uid d ws, 0 ≤ x.balance := by
  intro x hx
  rw [addBal, List.mem_map] at hx
  obtain ⟨v, hv, rfl⟩ := hx
  by_cases hb : (v.user_id == uid) = true
  · rw [if_pos hb]
    have hv0 := h v hv
    show 0 ≤ v.balance + d
    linarith
  · rw [if_neg hb]
    exact h v hv

theorem nonNeg_subBal (uid : Nat) (d : ℚ) (ws : List Wallet) (w : Wallet)
    (hnd : (ws.map Wallet.user_id).Nodup)
    (hw : ws.find? (fun x => x.user_id == uid) = some w)
    (hle : d ≤ w.balance)
    (h : ∀ x ∈ ws, 0 ≤ x.balance) : ∀ x ∈ subBal uid d ws, 0 ≤ x.balance := by
  intro x hx
  rw [subBal, List.mem_map] at hx
  obtain ⟨v, hv, rfl⟩ := hx
  by_cases hb : (v.user_id == uid) = true
  · have hvw : v = w := by
      have hwmem : w ∈ ws := List.mem_of_find?_eq_some hw
      have hwid : w.user_id = uid := mem_user_id_of_find? _ _ _ hw
      exact List.inj_on_of_nodup_map hnd hv hwmem (by rw [beq_iff_eq.mp hb, hwid])
    subst hvw
    rw [if_pos hb]
    show 0 ≤ v.balance - d
    linarith
  · rw [if_neg hb]
    exact h v hv

/-- The helper `_calculate_and_update_rewards` never touches the wallets table. -/
theorem wallets_calc_update (s : LedgerState) (sid : Nat) (fu : Bool) (now : ℚ) :
    ((calculate_and_update_rewards s sid fu now).2).wallets = s.wallets := by
  unfold calculate_and_update_rewards
  cases hf : s.stakes.find? (fun st => st.stake_id == sid) with
  | none => rfl
  | some st =>
    dsimp only
    split
    · rfl
    · rfl

/-- The amount and reward reported by `_calculate_and_update_rewards` are
non-negative whenever the schema constraints on stakes and boosters hold. -/
theorem calc_update_tuple_nonneg (s : LedgerState) (sid : Nat) (fu : Bool) (now : ℚ)
    (hst : ∀ st ∈ s.stakes, 0 ≤ st.amount)
    (hbo : ∀ b ∈ s.boosters, 0 ≤ b.effect_multiplier) :
    ∀ u2 am rew t2 s2, calculate_and_update_rewards s sid fu now = (some (u2, am, rew, t2), s2) →
      0 ≤ am ∧ 0 ≤ rew := by
  intro u2 am rew t2 s2 h
  unfold calculate_and_update_rewards at h
  cases hf : s.stakes.find? (fun st => st.stake_id == sid) with
  | none => rw [hf] at h; simp at h
  | some st =>
    rw [hf] at h
    dsimp only at h
    have hmem := List.mem_of_find?_eq_some hf
    have ham : 0 ≤ st.amount := hst st hmem
    have hrew : 0 ≤ calculate_rewards st.amount st.last_claimed_at now
        (get_active_booster_multiplier s st.user_id "speed_staking" now) :=
      calculate_rewards_nonneg _ _ _ _ ham (multiplier_nonneg s st.user_id _ now hbo)
    simp only [Prod.mk.injEq, Option.some.injEq] at h
    obtain ⟨⟨hu, ha2, hr2, ht2⟩, hs2⟩ := h
    exact ⟨ha2 ▸ ham, hr2 ▸ hrew⟩

theorem nonneg_execute_transfer (s : LedgerState) (a b : Nat) (amt now : ℚ)
    (hnn : nonNegBalances s) (hnd : walletIdsNodup s) :
    nonNegBalances (execute_transfer s a b amt now).2 := by
  unfold execute_transfer
  by_cases hamt : amt ≤ 0
  · rw [if_pos hamt]; exact hnn
  · rw [if_neg hamt]
    cases hsw : getWallet s a with
    | none => exact hnn
    | some sw =>
      cases hrw : getWallet s b with
      | none => exact hnn
      | some rw2 =>
        dsimp only
        by_cases hbal : sw.balance < amt
        · rw [if_pos hbal]; exact hnn
        · rw [if_neg hbal]
          intro x hx
          refine nonNeg_addBal b amt _ (le_of_lt (not_le.mp hamt)) ?_ x hx
          exact nonNeg_subBal a amt s.wallets sw hnd hsw (not_lt.mp hbal) hnn

theorem nonneg_stake_tokens (s : LedgerState) (a : Nat) (amt now : ℚ)
    (hnn : nonNegBalances s) (hnd : walletIdsNodup s) :
    nonNegBalances (stake_tokens s a amt now).2 := by
  unfold stake_tokens
  by_cases hamt : amt ≤ 0
  · rw [if_pos hamt]; exact hnn
  · rw [if_neg hamt]
    cases hsw : getWallet s a with
    | none => exact hnn
    | some sw =>
      dsimp only
      by_cases hbal : sw.balance < amt
      · rw [if_pos hbal]; exact hnn
      · rw [if_neg hbal]
        exact nonNeg_subBal a amt s.wallets sw hnd hsw (not_lt.mp hbal) hnn

theorem nonneg_sell_hkn (s : LedgerState) (a : Nat) (amt now : ℚ)
    (hnn : nonNegBalances s) (hnd : walletIdsNodup s) :
    nonNegBalances (sell_hkn_to_system s a amt now).2 := by
  unfold sell_hkn_to_system
  by_cases hamt : amt ≤ 0
  · rw [if_pos hamt]; exact hnn
  · rw [if_neg hamt]
    cases hsw : getWallet s a with
    | none => exact hnn
    | some sw =>
      dsimp only
      by_cases hbal : sw.balance < amt
      · rw [if_pos hbal]; exact hnn
      · rw [if_neg hbal]
        exact nonNeg_subBal a amt s.wallets sw hnd hsw (not_lt.mp hbal) hnn

theorem nonneg_buy_booster (s : LedgerState) (a : Nat) (key : String) (now : ℚ)
    (hnn : nonNegBalances s) (hnd : walletIdsNodup s) :
    nonNegBalances (buy_booster s a key now).2 := by
  unfold buy_booster
  cases hk : BOOSTER_TYPES key with
  | none => exact hnn
  | some cfg =>
    cases hsw : getWallet s a with
    | none => exact hnn
    | some sw =>
      dsimp only
      by_cases hbal : sw.balance < cfg.cost
      · rw [if_pos hbal]; exact hnn
      · rw [if_neg hbal]
        by_cases hsp : ("speed".data.isPrefixOf key.data) = true
        · rw [if_pos hsp]
          exact nonNeg_subBal a cfg.cost s.wallets sw hnd hsw (not_lt.mp hbal) hnn
        · rw [if_neg hsp]
          exact nonNeg_subBal a cfg.cost s.wallets sw hnd hsw (not_lt.mp hbal) hnn

theorem nonneg_claim_rewards (s : LedgerState) (a sid : Nat) (now : ℚ)
    (hnn : nonNegBalances s) :
    nonNegBalances (claim_rewards s a sid now).2 := by
  have hwal := wallets_calc_update s sid false now
  rcases hy : calculate_and_update_rewards s sid false now with ⟨opt, s2⟩
  rw [hy] at hwal
  have hnn2 : nonNegBalances s2 := by
    intro x hx
    exact hnn x (by rw [← hwal]; exact hx)
  unfold claim_rewards
  rw [hy]
  cases opt with
  | none => exact hnn2
  | some tup =>
    obtain ⟨u2, am, rew, t2⟩ := tup
    dsimp only
    by_cases h1 : u2 ≠ a
    · rw [if_pos h1]; exact hnn2
    · rw [if_neg h1]
      by_cases h2 : rew ≤ 0
      · rw [if_pos h2]; exact hnn2
      · rw [if_neg h2]
        exact nonNeg_addBal a rew s2.wallets (le_of_lt (not_le.mp h2)) hnn2

theorem nonneg_unstake_tokens (s : LedgerState) (a sid : Nat) (now : ℚ)
    (hnn : nonNegBalances s)
    (hst : ∀ st ∈ s.stakes, 0 ≤ st.amount)
    (hbo : ∀ b ∈ s.boosters, 0 ≤ b.effect_multiplier) :
    nonNegBalances (unstake_tokens s a sid now).2 := by
  have hwal := wallets_calc_update s sid true now
  rcases hy : calculate_and_update_rewards s sid true now with ⟨opt, s2⟩
  rw [hy] at hwal
  have hnn2 : nonNegBalances s2 := by
    intro x hx
    exact hnn x (by rw [← hwal]; exact hx)
  unfold unstake_tokens
  rw [hy]
  cases opt with
  | none => exact hnn2
  | some tup =>
    obtain ⟨u2, am, rew, t2⟩ := tup
    have hamrew := calc_update_tuple_nonneg s sid true now hst hbo u2 am rew t2 s2 hy
    dsimp only
    by_cases h1 : u2 ≠ a
    · rw [if_pos h1]; exact hnn2
    · rw [if_neg h1]
      exact nonNeg_addBal a (am + rew) s2.wallets
        (by linarith [hamrew.1, hamrew.2]) hnn2

/-- C2:  Every debiting operation — transfer, stake-open, sell-to-system
and booster purchase — fails with its insufficient-funds message and
mutates nothing when the account's balance is below the debit amount; and
no operation of the engine (transfer, stake, sell, booster purchase,
reward claim, unstake, account creation, price update) ever leaves any
account balance below zero, given the schema constraints (non-negative
balances, positive stake amounts and booster multipliers, unique wallet
ids). -/
theorem C2_insufficient_funds_and_nonneg (s : LedgerState) (uid rid a b sid : Nat)
    (amt now p : ℚ) (key : String) (cfg : BoosterCfg) (w : Wallet) (uname : String)
    (hnn : nonNegBalances s) (hnd : walletIdsNodup s)
    (hst : ∀ st ∈ s.stakes, 0 ≤ st.amount)
    (hbo : ∀ bo ∈ s.boosters, 0 ≤ bo.effect_multiplier)
    (hw : getWallet s uid = some w) :
    ((getWallet s rid).isSome = true → w.balance < amt →
        execute_transfer s uid rid amt now = ((false, OpMsg.insufficientSenderFunds), s)) ∧
    (w.balance < amt →
        stake_tokens s uid amt now
          = ((false, OpMsg.insufficientFundsBalance w.balance), s)) ∧
    (w.balance < amt →
        sell_hkn_to_system s uid amt now
          = ((false, OpMsg.insufficientHKNBalance w.balance), s)) ∧
    (BOOSTER_TYPES key = some cfg → w.balance < cfg.cost →
        buy_booster s uid key now = ((false, OpMsg.insufficientHKN cfg.cost w.balance), s)) ∧
    nonNegBalances (execute_transfer s a b amt now).2 ∧
    nonNegBalances (stake_tokens s a amt now).2 ∧
    nonNegBalances (sell_hkn_to_system s a amt now).2 ∧
    nonNegBalances (buy_booster s a key now).2 ∧
    nonNegBalances (claim_rewards s a sid now).2 ∧
    nonNegBalances (unstake_tokens s a sid now).2 ∧
    nonNegBalances (create_wallet s a uname).2 ∧
    nonNegBalances (set_token_price s p).2 := by
  have hw0 : 0 ≤ w.balance := hnn w (List.mem_of_find?_eq_some hw)
  refine ⟨?_, ?_, ?_, ?_, nonneg_execute_transfer s a b amt now hnn hnd,
    nonneg_stake_tokens s a amt now hnn hnd, nonneg_sell_hkn s a amt now hnn hnd,
    nonneg_buy_booster s a key now hnn hnd, nonneg_claim_rewards s a sid now hnn,
    nonneg_unstake_tokens s a sid now hnn hst hbo, ?_, ?_⟩
  · intro hrid hlt
    obtain ⟨v, hv⟩ := Option.isSome_iff_exists.mp hrid
    unfold execute_transfer
    rw [if_neg (not_le.mpr (lt_of_le_of_lt hw0 hlt)), hw, hv]
    dsimp only
    rw [if_pos hlt]
  · intro hlt
    unfold stake_tokens
    rw [if_neg (not_le.mpr (lt_of_le_of_lt hw0 hlt)), hw]
    dsimp only
    rw [if_pos hlt]
  · intro hlt
    unfold sell_hkn_to_system
    rw [if_neg (not_le.mpr (lt_of_le_of_lt hw0 hlt)), hw]
    dsimp only
    rw [if_pos hlt]
  · intro hcfg hlt
    unfold buy_booster
    rw [hcfg]
    dsimp only
    rw [hw]
    dsimp only
    rw [if_pos hlt]
  · unfold create_wallet
    cases hg : getWallet s a with
    | some v => exact hnn
    | none =>
      intro x hx
      rcases List.mem_append.mp hx with hx1 | hx2
      · exact hnn x hx1
      · rw [List.mem_singleton.mp hx2]
        norm_num [TokenConfig.STARTUP_BONUS]
  · unfold set_token_price
    by_cases hp : p ≤ 0
    · rw [if_pos hp]; exact hnn
    · rw [if_neg hp]; exact hnn

/-- Witness for C2: in `stateLow` (sender balance 5, receiver present), a
transfer of 10 fails with the insufficient-funds outcome and mutates
nothing, and the state after the attempted transfer still has only
non-negative balances. -/
theorem C2_witness :
    execute_transfer stateLow 1 2 10 0 = ((false, OpMsg.insufficientSenderFunds), stateLow) ∧
    stake_tokens stateLow 1 10 0
      = ((false, OpMsg.insufficientFundsBalance 5), stateLow) ∧
    nonNegBalances (execute_transfer stateLow 1 2 10 0).2 := by
  have h := C2_insufficient_funds_and_nonneg stateLow 1 2 1 2 1 10 0 1 "speed_7d_2x"
      ⟨"Мега Ускоритель х2.0 (7 дней)", 500, 168, 2⟩ ⟨1, "alice", 5⟩ "x"
      (by decide) (by decide) (by decide) (by decide) (by decide)
  exact ⟨h.1 (by decide) (by norm_num), h.2.1 (by norm_num), h.2.2.2.2.1⟩

/-!  ## C3 -/

/-- C3: `calculate_rewards` is a pure function equal to
`stake_amount × hoursElapsed(last_claimed_at, now) × BASE_HOURLY_REWARD_RATE ×
multiplier`, where `hoursElapsed` clamps negative durations to zero; for
stake amount 50, 100 elapsed hours (360000 seconds), rate 0.001 and
multiplier 1.0 it returns exactly 5, and whenever `end_time` precedes
`start_time` it returns 0. -/
theorem C3_calculate_rewards_formula (amt t0 t1 m t : ℚ) :
    calculate_rewards amt t0 t1 m
        = amt * (max (t1 - t0) 0 / 3600) * BASE_HOURLY_REWARD_RATE * m ∧
    (t1 < t0 → calculate_rewards amt t0 t1 m = 0) ∧
    calculate_rewards 50 t (t + 360000) 1 = 5 := by
  refine ⟨?_, ?_, ?_⟩
  · unfold calculate_rewards
    dsimp only
    rcases le_or_lt 0 (t1 - t0) with h | h
    · rw [if_neg (not_lt.mpr h), max_eq_left h]; ring
    · rw [if_pos h, max_eq_right (le_of_lt h)]; ring
  · intro h
    unfold calculate_rewards
    dsimp only
    rw [if_pos (by linarith)]
    ring
  · unfold calculate_rewards BASE_HOURLY_REWARD_RATE
    dsimp only
    rw [if_neg (by intro hc; rw [add_sub_cancel_left] at hc; norm_num at hc)]
    rw [add_sub_cancel_left]
    norm_num

/-- Witness for C3: a reversed interval yields 0; the spec's worked
scenario (50 HKN staked, 100 hours, multiplier 1) yields exactly 5. -/
theorem C3_witness :
    calculate_rewards 50 3600 0 1 = 0 ∧ calculate_rewards 50 0 360000 1 = 5 := by
  refine ⟨(C3_calculate_rewards_formula 50 3600 0 1 0).2.1 (by norm_num), ?_⟩
  have h := (C3_calculate_rewards_formula 50 3600 0 1 0).2.2
  simpa using h

/-!  ## C7 -/

/-- C7 counterexample:  On the empty ledger, `create_wallet` succeeds
and credits the startup bonus, but the transaction log stays empty: no
mint-style LedgerEntry is written, refuting the claim that account
creation "writes one mint-style LedgerEntry crediting that bonus". -/
theorem C7_counterexample :
    ((create_wallet stateEmpty 1 "alice").1).isSome = true ∧
    (create_wallet stateEmpty 1 "alice").2.wallets
      = [⟨1, "alice", TokenConfig.STARTUP_BONUS⟩] ∧
    (create_wallet stateEmpty 1 "alice").2.transactions = [] := by decide

/-- C7 amended:  `create_wallet` inserts an Account with the fixed
starting balance `STARTUP_BONUS` and writes **no** LedgerEntry; it fails
when an account with that id already exists, leaving the state (and thus
the existing account) unchanged. -/
theorem C7_create_wallet (s : LedgerState) (uid : Nat) (uname : String) :
    (getWallet s uid = none →
        create_wallet s uid uname
          = (some ⟨uid, uname, TokenConfig.STARTUP_BONUS⟩,
             { s with
               wallets := s.wallets ++ [⟨uid, uname, TokenConfig.STARTUP_BONUS⟩],
               cache := [] }) ∧
        (create_wallet s uid uname).2.transactions = s.transactions) ∧
    (∀ w, getWallet s uid = some w → create_wallet s uid uname = (none, s)) := by
  constructor
  · intro h
    constructor
    · unfold create_wallet; rw [h]
    · unfold create_wallet; rw [h]
  · intro w h
    unfold create_wallet; rw [h]

/-- Witness for C7: creating account 1 on the empty ledger succeeds with
balance 100 and no log entry; creating it again fails and changes
nothing. -/
theorem C7_witness :
    create_wallet stateEmpty 1 "alice"
      = (some ⟨1, "alice", TokenConfig.STARTUP_BONUS⟩,
         { stateEmpty with
           wallets := [⟨1, "alice", TokenConfig.STARTUP_BONUS⟩],
           cache := [] }) ∧
    create_wallet (create_wallet stateEmpty 1 "alice").2 1 "again"
      = (none, (create_wallet stateEmpty 1 "alice").2) := by
  constructor
  · have h := (C7_create_wallet stateEmpty 1 "alice").1 (by decide)
    simpa using h.1
  · exact (C7_create_wallet (create_wallet stateEmpty 1 "alice").2 1 "again").2
      ⟨1, "alice", TokenConfig.STARTUP_BONUS⟩ (by decide)

/-!  ## C8 -/

theorem mem_insertTsDesc (x t : Transaction) (l : List Transaction) :
    x ∈ insertTsDesc t l ↔ x = t ∨ x ∈ l := by
  induction l with
  | nil => simp [insertTsDesc]
  | cons u us ih =>
    unfold insertTsDesc
    by_cases hc : t.timestamp < u.timestamp
    · rw [if_pos hc]
      simp only [List.mem_cons, ih]
      tauto
    · rw [if_neg hc]
      simp only [List.mem_cons]

theorem insertTsDesc_pairwise (t : Transaction) (l : List Transaction)
    (h : l.Pairwise (fun a b => b.timestamp ≤ a.timestamp)) :
    (insertTsDesc t l).Pairwise (fun a b => b.timestamp ≤ a.timestamp) := by
  induction l with
  | nil => simp [insertTsDesc]
  | cons u us ih =>
    rw [List.pairwise_cons] at h
    unfold insertTsDesc
    by_cases hc : t.timestamp < u.timestamp
    · rw [if_pos hc]
      rw [List.pairwise_cons]
      refine ⟨?_, ih h.2⟩
      intro x hx
      rcases (mem_insertTsDesc x t us).mp hx with rfl | hxu
      · exact le_of_lt hc
      · exact h.1 x hxu
    · rw [if_neg hc]
      rw [List.pairwise_cons]
      refine ⟨?_, List.pairwise_cons.mpr h⟩
      intro x hx
      rcases List.mem_cons.mp hx with rfl | hxu
      · exact not_lt.mp hc
      · exact le_trans (h.1 x hxu) (not_lt.mp hc)

theorem sortTsDesc_pairwise (l : List Transaction) :
    (sortTsDesc l).Pairwise (fun a b => b.timestamp ≤ a.timestamp) := by
  induction l with
  | nil => exact List.Pairwise.nil
  | cons t ts ih => exact insertTsDesc_pairwise t (sortTsDesc ts) ih

theorem mem_sortTsDesc (x : Transaction) (l : List Transaction) :
    x ∈ sortTsDesc l ↔ x ∈ l := by
  induction l with
  | nil => simp [sortTsDesc]
  | cons t ts ih =>
    unfold sortTsDesc
    rw [mem_insertTsDesc, ih, List.mem_cons]

/-- C8 counterexample:  A reachable scenario in which `GetHistory` is
served from the read cache instead of the store: after the empty history of
user 1 is read (and cached) at time 0, a transfer commits at time 10 on a
raw store transaction, which does not invalidate the cache; the history
read at time 20 (well within the 300-second TTL) still returns the stale
empty list although the store holds a matching entry — refuting "always
bypasses the read cache". -/
theorem C8_counterexample :
    (get_transaction_history stateHist2 1 5 0 20).1 = [] ∧
    stateHist2.transactions.filter (txMatchesUser 1) = [⟨1, 10, 1, 2, 20, "Перевод"⟩] := by
  have hc : stateHist2.cache = [⟨1, 5, 0, [], 0, CACHE_TTL⟩] := by decide
  have ht : stateHist2.transactions = [⟨1, 10, 1, 2, 20, "Перевод"⟩] := by decide
  have hpred : (fun e => histKey e 1 5 0 && cacheFresh 20 e)
      (⟨1, 5, 0, [], 0, CACHE_TTL⟩ : HistCacheEntry) = true := by
    norm_num [histKey, cacheFresh, CACHE_TTL]
  have hfind : stateHist2.cache.find? (fun e => histKey e 1 5 0 && cacheFresh 20 e)
      = some ⟨1, 5, 0, [], 0, CACHE_TTL⟩ := by
    rw [hc]
    exact List.find?_cons_of_pos _ hpred
  constructor
  · unfold get_transaction_history
    rw [hfind]
  · rw [ht]; decide

/-- C8 amended:  `get_transaction_history` does NOT bypass the read
cache: a fresh cache entry for `(user, limit, offset)` is returned as-is.
Only on a cache miss does it query the store, returning exactly the
entries in which the user is sender or receiver, sorted by timestamp
descending — with no id tie-break: ties keep table order — honouring
limit and offset. -/
theorem C8_get_transaction_history (s : LedgerState) (uid lim off : Nat) (now : ℚ) :
    (∀ e, s.cache.find? (fun e => histKey e uid lim off && cacheFresh now e) = some e →
        (get_transaction_history s uid lim off now).1 = e.value) ∧
    (s.cache.find? (fun e => histKey e uid lim off && cacheFresh now e) = none →
        (get_transaction_history s uid lim off now).1
          = ((sortTsDesc (s.transactions.filter (txMatchesUser uid))).drop off).take lim ∧
        (get_transaction_history s uid lim off now).1.Pairwise
          (fun a b => b.timestamp ≤ a.timestamp) ∧
        ∀ t ∈ (get_transaction_history s uid lim off now).1,
          t ∈ s.transactions ∧ txMatchesUser uid t = true) := by
  constructor
  · intro e he
    unfold get_transaction_history
    rw [he]
  · intro hnone
    unfold get_transaction_history
    rw [hnone]
    refine ⟨rfl, ?_, ?_⟩
    · exact List.Pairwise.sublist
        ((List.take_sublist _ _).trans (List.drop_sublist _ _))
        (sortTsDesc_pairwise _)
    · intro t ht
      have h1 : t ∈ sortTsDesc (s.transactions.filter (txMatchesUser uid)) :=
        List.Sublist.mem ht ((List.take_sublist _ _).trans (List.drop_sublist _ _))
      have h2 := (mem_sortTsDesc _ _).mp h1
      exact ⟨List.mem_of_mem_filter h2, List.of_mem_filter h2⟩

/-- Witness for C8 on a concrete cache miss: with an empty cache the
history of user 1 in `stateHist0` (no transactions yet) is read from the
store and is empty. -/
theorem C8_witness :
    (get_transaction_history stateHist0 1 5 0 0).1 = [] := by
  have h := (C8_get_transaction_history stateHist0 1 5 0 0).2 (by decide)
  rw [h.1]
  decide

/-!  ## C9 -/

/-- Deleting the rows satisfying `p` really removes every row any stricter
filter `q` could still have matched. -/
theorem filter_of_filter_not {α : Type} (p q : α → Bool)
    (h : ∀ x, q x = true → p x = true) (l : List α) :
    (l.filter (fun x => !(p x))).filter q = [] := by
  induction l with
  | nil => rfl
  | cons x xs ih =>
    by_cases hp : p x = true
    · simp only [List.filter_cons, hp, Bool.not_true, Bool.false_eq_true, if_neg,
        not_false_iff]
      exact ih
    · have hq : q x = false := by
        cases hqx : q x with
        | false => rfl
        | true => exact absurd (h x hqx) hp
      simp only [List.filter_cons, hp, Bool.not_false, if_pos, hq, Bool.false_eq_true,
        if_neg, not_false_iff]
      exact ih

/-- C9:  After a successful `buy_booster` of a speed-category booster,
the owner's speed-category booster rows are exactly the newly inserted one
— the previous one is deleted, not stacked — so at most one unexpired
booster of that category exists and `get_active_booster_multiplier`
returns the newly purchased booster's multiplier; and in any state where
an owner has no unexpired booster matching a category prefix, the
multiplier is 1.0. -/
theorem C9_booster_exclusive (s : LedgerState) (uid : Nat) (key : String)
    (cfg : BoosterCfg) (now : ℚ) (w : Wallet)
    (hcfg : BOOSTER_TYPES key = some cfg)
    (hw : getWallet s uid = some w)
    (hbal : cfg.cost ≤ w.balance) :
    ((buy_booster s uid key now).1) = (true, OpMsg.boosterBought key) ∧
    (buy_booster s uid key now).2.boosters.filter
        (fun b => b.user_id == uid && likePrefixMatch "speed".data b.booster_type.data)
      = [⟨s.next_booster_id, uid, key, now + cfg.duration_hours * 3600, cfg.multiplier⟩] ∧
    get_active_booster_multiplier (buy_booster s uid key now).2 uid "speed" now
      = cfg.multiplier ∧
    (∀ pref, s.boosters.filter (boosterMatches uid pref now) = [] →
        get_active_booster_multiplier s uid pref now = 1) := by
  have hkeycfg : (key = "speed_24h_1.5x" ∧ cfg = ⟨"Ускоритель х1.5 (24ч)", 100, 24, 3 / 2⟩)
      ∨ (key = "speed_7d_2x" ∧ cfg = ⟨"Мега Ускоритель х2.0 (7 дней)", 500, 168, 2⟩) := by
    unfold BOOSTER_TYPES at hcfg
    by_cases h1 : key = "speed_24h_1.5x"
    · rw [if_pos h1] at hcfg
      exact Or.inl ⟨h1, (Option.some_inj.mp hcfg).symm⟩
    · rw [if_neg h1] at hcfg
      by_cases h2 : key = "speed_7d_2x"
      · rw [if_pos h2] at hcfg
        exact Or.inr ⟨h2, (Option.some_inj.mp hcfg).symm⟩
      · rw [if_neg h2] at hcfg
        exact absurd hcfg (by simp)
  have hstart : "speed".data.isPrefixOf key.data = true := by
    rcases hkeycfg with ⟨h, _⟩ | ⟨h, _⟩ <;> rw [h] <;> decide
  have hlike : likePrefixMatch "speed".data key.data = true := by
    rcases hkeycfg with ⟨h, _⟩ | ⟨h, _⟩ <;> rw [h] <;> decide
  have hdur : 0 < cfg.duration_hours := by
    rcases hkeycfg with ⟨_, h⟩ | ⟨_, h⟩ <;> rw [h] <;> norm_num
  have hw2 : s.wallets.find? (fun x => x.user_id == uid) = some w := hw
  unfold buy_booster
  rw [hcfg]
  dsimp only
  rw [show getWallet s uid = some w from hw]
  dsimp only
  rw [if_neg (not_lt.mpr hbal), if_pos hstart]
  dsimp only
  refine ⟨rfl, ?_, ?_, ?_⟩
  · dsimp only [appendTx]
    rw [List.filter_append]
    rw [filter_of_filter_not _ _ (fun x hx => hx) s.boosters]
    simp only [List.nil_append, List.filter_cons, beq_self_eq_true, Bool.true_and, hlike,
      if_pos, List.filter_nil]
  · unfold get_active_booster_multiplier
    dsimp only [appendTx]
    rw [List.filter_append]
    rw [filter_of_filter_not
        (fun b => b.user_id == uid && likePrefixMatch "speed".data b.booster_type.data)
        (boosterMatches uid "speed" now)
        (fun x hx => by
          unfold boosterMatches at hx
          rw [Bool.and_eq_true, Bool.and_eq_true] at hx
          rw [Bool.and_eq_true]
          exact hx.1) s.boosters]
    have hact : boosterMatches uid "speed" now
        (⟨s.next_booster_id, uid, key, now + cfg.duration_hours * 3600, cfg.multiplier⟩
          : Booster) = true := by
      unfold boosterMatches
      rw [Bool.and_eq_true, Bool.and_eq_true]
      refine ⟨⟨beq_self_eq_true uid, hlike⟩, ?_⟩
      rw [decide_eq_true_iff]
      show now < now + cfg.duration_hours * 3600
      have h36 : (0 : ℚ) < cfg.duration_hours * 3600 := by positivity
      linarith
    simp only [List.nil_append, List.filter_cons, hact, if_pos, List.filter_nil]
    rfl
  · intro pref hempty
    unfold get_active_booster_multiplier
    rw [hempty]

/-- Witness for C9: buying the 7-day booster for user 1 of `stateBooster`
(who already holds an older 24-hour speed booster) replaces it — exactly
one speed booster row remains, and the active multiplier at purchase time
is the new booster's 2.0; a user with no unexpired booster (user 1 of
`stateAB`) gets multiplier 1. -/
theorem C9_witness :
    (buy_booster stateBooster 1 "speed_7d_2x" 100).2.boosters.filter
        (fun b => b.user_id == 1 && likePrefixMatch "speed".data b.booster_type.data)
      = [⟨2, 1, "speed_7d_2x", 100 + 168 * 3600, 2⟩] ∧
    get_active_booster_multiplier (buy_booster stateBooster 1 "speed_7d_2x" 100).2 1
        "speed" 100 = 2 ∧
    get_active_booster_multiplier stateAB 1 "speed" 0 = 1 := by
  have h := C9_booster_exclusive stateBooster 1 "speed_7d_2x"
      ⟨"Мега Ускоритель х2.0 (7 дней)", 500, 168, 2⟩ 100 ⟨1, "dave", 1000⟩
      (by decide) (by decide) (by norm_num)
  refine ⟨?_, ?_, ?_⟩
  · rw [h.2.1]
    rfl
  · exact h.2.2.1
  · exact h.2.2.2 "speed" (by decide)

/-!  ## C10 -/

/-- C10: `set_token_price` rejects every non-positive new price —
for `new_price ≤ 0` it returns failure and leaves the state, in particular
`current_price`, unchanged — and for any positive new price it updates the
singleton token row's `current_price` to exactly that value (clearing the
read cache, as every `execute_query` write does). -/
theorem C10_set_token_price (s : LedgerState) (p : ℚ) :
    (p ≤ 0 → set_token_price s p = (false, s)) ∧
    (0 < p → set_token_price s p
        = (true, { s with token := { s.token with current_price := p }, cache := [] })) := by
  constructor
  · intro hp; simp [set_token_price, hp]
  · intro hp; simp [set_token_price, not_le.mpr hp]

/-- Witness for C10: price −1 (and so any non-positive price) is rejected
on a concrete state; price 2 is stored. -/
theorem C10_witness :
    set_token_price stateEmpty (-1) = (false, stateEmpty) ∧
    (set_token_price stateEmpty 2).2.token.current_price = 2 := by
  refine ⟨(C10_set_token_price stateEmpty (-1)).1 (by norm_num), ?_⟩
  rw [(C10_set_token_price stateEmpty 2).2 (by norm_num)]

/-!  ## C5 -/

/-- C5 counterexample:  `stake_tokens` accepts 5 HKN even though
`MIN_STAKE_AMOUNT = 10`: the call succeeds, debits the balance and creates
a stake row, refuting the claimed `BelowMinimum` rejection — the configured
stake bounds are never consulted by the code. -/
theorem C5_counterexample :
    (5 : ℚ) < TokenConfig.MIN_STAKE_AMOUNT ∧
    ((stake_tokens stateNoStakes 1 5 0).1).1 = true ∧
    balanceOf (stake_tokens stateNoStakes 1 5 0).2 1 = 95 ∧
    (stake_tokens stateNoStakes 1 5 0).2.stakes = [⟨1, 1, 5, 0, 0⟩] := by
  refine ⟨by norm_num [TokenConfig.MIN_STAKE_AMOUNT], by decide, ?_, by decide⟩
  norm_num [stake_tokens, stateNoStakes, balanceOf, getWallet, subBal]

/-- C5 amended:  `stake_tokens` validates only `amount > 0` and the
balance — the `MIN_STAKE_AMOUNT`/`MAX_STAKE_AMOUNT` bounds are not
enforced: a non-positive amount fails, an overdraft fails with the
insufficient-funds message, and any positive amount up to the balance
succeeds, debiting the owner's balance by `amount` and inserting a Stake
with `created_at = last_claimed_at = now`, atomically; failures change
nothing. -/
theorem C5_stake_tokens (s : LedgerState) (uid : Nat) (amt now : ℚ) (w : Wallet)
    (hw : getWallet s uid = some w) :
    (amt ≤ 0 → stake_tokens s uid amt now = ((false, OpMsg.stakeAmountNotPositive), s)) ∧
    (0 < amt → w.balance < amt →
        stake_tokens s uid amt now
          = ((false, OpMsg.insufficientFundsBalance w.balance), s)) ∧
    (0 < amt → amt ≤ w.balance →
        stake_tokens s uid amt now
          = ((true, OpMsg.stakeDone amt),
             { s with
               wallets := subBal uid amt s.wallets,
               stakes := s.stakes ++ [⟨s.next_stake_id, uid, amt, now, now⟩],
               next_stake_id := s.next_stake_id + 1 })) := by
  refine ⟨?_, ?_, ?_⟩
  · intro h; simp [stake_tokens, h]
  · intro h1 h2
    unfold stake_tokens
    rw [if_neg (not_le.mpr h1), hw]
    dsimp only
    rw [if_pos h2]
  · intro h1 h2
    unfold stake_tokens
    rw [if_neg (not_le.mpr h1), hw]
    dsimp only
    rw [if_neg (not_lt.mpr h2)]

/-- Witness for C5: on a wallet holding 100 HKN, staking 0 fails, staking
200 fails for insufficient funds, staking 30 records the stake opened and
last-claimed at `now`. -/
theorem C5_witness :
    stake_tokens stateNoStakes 1 0 0 = ((false, OpMsg.stakeAmountNotPositive), stateNoStakes) ∧
    stake_tokens stateNoStakes 1 200 0
      = ((false, OpMsg.insufficientFundsBalance 100), stateNoStakes) ∧
    (stake_tokens stateNoStakes 1 30 7 ).2.stakes = [⟨1, 1, 30, 7, 7⟩] := by
  have h0 := C5_stake_tokens stateNoStakes 1 0 0 ⟨1, "carol", 100⟩ (by decide)
  have h2 := C5_stake_tokens stateNoStakes 1 200 0 ⟨1, "carol", 100⟩ (by decide)
  have h3 := C5_stake_tokens stateNoStakes 1 30 7 ⟨1, "carol", 100⟩ (by decide)
  refine ⟨h0.1 (by norm_num), h2.2.1 (by norm_num) (by norm_num), ?_⟩
  rw [h3.2.2 (by norm_num) (by norm_num)]
  decide

/-!  ## C4 -/

/-- C4 counterexample:  With a pending reward of 1/2000000 HKN — far
below the claimed dust threshold of 0.001 — `claim_rewards` pays out and
mutates the balance instead of reporting NothingToClaim: the payout guard
in the source is `calculated_rewards <= 0`, i.e. a zero threshold, not a
positive dust threshold. -/
theorem C4_counterexample :
    calculate_rewards 2 0 1 1 ≤ 1 / 1000 ∧
    0 < calculate_rewards 2 0 1 1 ∧
    ((claim_rewards stateSmallStake 1 1 1).1).1 = true ∧
    balanceOf (claim_rewards stateSmallStake 1 1 1).2 1 ≠ balanceOf stateSmallStake 1 := by
  have hrew : calculate_rewards 2 0 1 1 = 1 / 1800000 := by
    norm_num [calculate_rewards, BASE_HOURLY_REWARD_RATE]
  have hm : get_active_booster_multiplier stateSmallStake 1 "speed_staking" 1 = 1 := by decide
  have hfind : stateSmallStake.stakes.find? (fun t => t.stake_id == 1)
      = some ⟨1, 1, 2, 0, 0⟩ := by decide
  have hstep : claim_rewards stateSmallStake 1 1 1
      = ((true, OpMsg.claimDone (calculate_rewards 2 0 1 1)),
         appendTx
           { stateSmallStake with
             wallets := addBal 1 (calculate_rewards 2 0 1 1) stateSmallStake.wallets,
             stakes := [⟨1, 1, 2, 0, 1⟩],
             cache := [] }
           0 1 (calculate_rewards 2 0 1 1)
           ("Награда за стейкинг (ID: " ++ toString 1 ++ ")") 1) := by
    unfold claim_rewards calculate_and_update_rewards
    rw [hfind]
    dsimp only
    rw [hm]
    rw [if_neg (not_ne_iff.mpr rfl)]
    rw [if_neg (by rw [hrew]; norm_num : ¬(calculate_rewards 2 0 1 1 ≤ 0))]
    rw [if_pos (⟨by rw [hrew]; norm_num, rfl⟩ :
      0 < calculate_rewards 2 0 1 1 ∧ false = false)]
    rfl
  refine ⟨by rw [hrew]; norm_num, by rw [hrew]; norm_num, by rw [hstep], ?_⟩
  rw [hstep, hrew]
  norm_num [balanceOf, getWallet, appendTx, addBal, stateSmallStake]

/-- C4 amended:  `claim_rewards` has dust threshold **zero**: when
the computed pending reward is ≤ 0 — in particular on an immediate second
call with zero elapsed time — it fails with the nothing-to-claim message
and performs no mutation at all (the owner's balance, the stake's
`last_claimed_at` and the ledger are untouched, the returned state is the
input state); whenever the reward is strictly positive, however small, it
pays out. -/
theorem C4_claim_rewards_threshold_zero (s : LedgerState) (uid sid : Nat) (now : ℚ)
    (st : Stake)
    (hfind : s.stakes.find? (fun t => t.stake_id == sid) = some st)
    (hown : st.user_id = uid) :
    (calculate_rewards st.amount st.last_claimed_at now
        (get_active_booster_multiplier s st.user_id "speed_staking" now) ≤ 0 →
      claim_rewards s uid sid now = ((false, OpMsg.noRewardsToClaim), s)) ∧
    (0 < calculate_rewards st.amount st.last_claimed_at now
        (get_active_booster_multiplier s st.user_id "speed_staking" now) →
      ((claim_rewards s uid sid now).1).1 = true) := by
  constructor
  · intro hr
    unfold claim_rewards calculate_and_update_rewards
    rw [hfind]
    dsimp only
    rw [if_neg (not_ne_iff.mpr hown), if_pos hr]
    rw [if_neg (fun hc => absurd hc.1 (not_lt.mpr hr))]
  · intro hr
    unfold claim_rewards calculate_and_update_rewards
    rw [hfind]
    dsimp only
    rw [if_neg (not_ne_iff.mpr hown), if_neg (not_le.mpr hr)]

/-- Witness for C4: claiming the stake of `stateSmallStake` at the very
moment of its last claim (elapsed time 0) reports nothing to claim and
returns the state unchanged. -/
theorem C4_witness :
    claim_rewards stateSmallStake 1 1 0 = ((false, OpMsg.noRewardsToClaim), stateSmallStake) := by
  have h := C4_claim_rewards_threshold_zero stateSmallStake 1 1 0 ⟨1, 1, 2, 0, 0⟩
      (by decide) rfl
  exact h.1 (by norm_num [calculate_rewards, BASE_HOURLY_REWARD_RATE,
    get_active_booster_multiplier, stateSmallStake, boosterMatches])

/-!  ## C6 -/

/-- C6 counterexample:  Closing the 50-HKN stake of `stateWithStake`
after 100 hours succeeds but appends exactly ONE ledger entry — a single
combined row of amount 55 = principal 50 + reward 5 — not the two entries
(principal-return and reward) the claim requires. -/
theorem C6_counterexample :
    ((unstake_tokens stateWithStake 1 1 360000).1).1 = true ∧
    (unstake_tokens stateWithStake 1 1 360000).2.transactions.length = 1 ∧
    ((unstake_tokens stateWithStake 1 1 360000).2.transactions.map Transaction.amount)
      = [55] := by
  have hfind : stateWithStake.stakes.find? (fun t => t.stake_id == 1)
      = some ⟨1, 1, 50, 0, 0⟩ := by decide
  have hstep : unstake_tokens stateWithStake 1 1 360000
      = ((true, OpMsg.unstakeDone 50 (calculate_rewards 50 0 360000 1)),
         appendTx
           { stateWithStake with
             wallets := addBal 1 (50 + calculate_rewards 50 0 360000 1) stateWithStake.wallets,
             stakes := [] }
           0 1 (50 + calculate_rewards 50 0 360000 1)
           ("Возврат со стейкинга (ID: " ++ toString 1 ++ ") + награды") 360000) := by
    unfold unstake_tokens calculate_and_update_rewards
    rw [hfind]
    dsimp only
    rw [show get_active_booster_multiplier stateWithStake 1 "speed_staking" 360000 = 1 from
      by decide]
    rw [if_neg (not_ne_iff.mpr rfl)]
    rw [if_neg (fun hc : _ ∧ true = false => absurd hc.2 (by decide))]
    rfl
  refine ⟨by rw [hstep], by rw [hstep]; rfl, ?_⟩
  rw [hstep]
  norm_num [calculate_rewards, BASE_HOURLY_REWARD_RATE, appendTx, stateWithStake]

/-- C6 amended:  `unstake_tokens`, for the stake's owner, credits
principal plus pending reward to the owner's balance in one step, deletes
the Stake row, and writes exactly ONE combined LedgerEntry (sender 0,
amount = principal + reward) — not two — all within one atomic unit. -/
theorem C6_unstake_tokens (s : LedgerState) (uid sid : Nat) (now : ℚ) (st : Stake)
    (w : Wallet)
    (hfind : s.stakes.find? (fun t => t.stake_id == sid) = some st)
    (hown : st.user_id = uid)
    (hw : getWallet s uid = some w) :
    ((unstake_tokens s uid sid now).1)
        = (true, OpMsg.unstakeDone st.amount
            (calculate_rewards st.amount st.last_claimed_at now
              (get_active_booster_multiplier s st.user_id "speed_staking" now))) ∧
    balanceOf (unstake_tokens s uid sid now).2 uid
        = w.balance + (st.amount + calculate_rewards st.amount st.last_claimed_at now
            (get_active_booster_multiplier s st.user_id "speed_staking" now)) ∧
    (unstake_tokens s uid sid now).2.stakes
        = s.stakes.filter (fun t => !(t.stake_id == sid)) ∧
    (unstake_tokens s uid sid now).2.transactions
        = s.transactions ++ [⟨s.next_tx_id, now, 0, uid,
            st.amount + calculate_rewards st.amount st.last_claimed_at now
              (get_active_booster_multiplier s st.user_id "speed_staking" now),
            "Возврат со стейкинга (ID: " ++ toString sid ++ ") + награды"⟩] := by
  have hwu : w.user_id = uid := mem_user_id_of_find? _ _ _ hw
  have hw2 : s.wallets.find? (fun x => x.user_id == uid) = some w := hw
  unfold unstake_tokens calculate_and_update_rewards
  rw [hfind]
  dsimp only
  rw [if_neg (not_ne_iff.mpr hown)]
  rw [if_neg (fun hc : _ ∧ true = false => absurd hc.2 (by decide))]
  refine ⟨rfl, ?_, rfl, rfl⟩
  simp only [balanceOf, getWallet, appendTx]
  rw [find?_addBal, hw2]
  simp [hwu]

/-- Witness for C6: unstaking the 50-HKN stake after 100 hours returns
principal 50 and reward 5, leaves balance 55 and no stake rows. -/
theorem C6_witness :
    ((unstake_tokens stateWithStake 1 1 360000).1) = (true, OpMsg.unstakeDone 50 5) ∧
    balanceOf (unstake_tokens stateWithStake 1 1 360000).2 1 = 55 ∧
    (unstake_tokens stateWithStake 1 1 360000).2.stakes = [] := by
  have h := C6_unstake_tokens stateWithStake 1 1 360000 ⟨1, 1, 50, 0, 0⟩ ⟨1, "carol", 0⟩
      (by decide) rfl (by decide)
  refine ⟨?_, ?_, ?_⟩
  · rw [h.1]
    norm_num [calculate_rewards, BASE_HOURLY_REWARD_RATE, get_active_booster_multiplier,
      stateWithStake, boosterMatches]
  · rw [h.2.1]
    norm_num [calculate_rewards, BASE_HOURLY_REWARD_RATE, get_active_booster_multiplier,
      stateWithStake, boosterMatches]
  · rw [h.2.2.1]
    decide

end HelgyKoin
